import Mathlib

/-!
Verification of the `dopplerconfig` Go package: a shallow embedding of its
configuration resolution and reload engine (loader, field mapper, secret
redaction, multi-tenant reload diff, watcher failure counting, and the
`url` validation rule), together with theorems settling the frozen claims.

Machine integers are modelled as `Int`/`Nat` with explicit 64-bit bounds
where the Go standard library checks ranges.  Go maps are modelled as
association lists (`List (String × String)`) with distinct keys, looked up
with `List.lookup`; map iteration order is irrelevant to every modelled
result (the code sorts or existentially quantifies wherever Go iteration
order could show).
-/

namespace DopplerConfig

/-! ## Go standard-library string and number parsing models

These definitions model the exact success/failure behaviour of the Go
standard-library functions used by `loader.go` (`strconv.ParseInt`,
`strconv.ParseUint`, `strconv.ParseFloat`, `strconv.ParseBool`,
`time.ParseDuration`, `strings.Split`, `strings.TrimSpace`,
`strings.ToLower` on the ASCII range).
-/

/-- Decimal digit test, as Go's `'0' <= c && c <= '9'`. -/
def isDecDigit (c : Char) : Bool :=
  '0' ≤ c && c ≤ '9'

/-- Accumulate a run of decimal digits; `none` if a non-digit appears. -/
def decVal : List Char → Nat → Option Nat
  | [], acc => some acc
  | c :: t, acc =>
      if isDecDigit c then decVal t (acc * 10 + (c.toNat - '0'.toNat)) else none

/-- Model of Go `strconv.ParseInt(s, 10, 64)`: optional sign, then a
non-empty run of decimal digits, with the int64 range check.  Returns the
parsed value, or `none` when Go returns a non-nil error. -/
def parseInt64 (s : String) : Option Int :=
  match s.data with
  | [] => none
  | c :: t =>
      let signed : Bool × List Char :=
        if c = '-' then (true, t) else if c = '+' then (false, t) else (false, c :: t)
      match signed with
      | (neg, digits) =>
          if digits.isEmpty then none
          else
            match decVal digits 0 with
            | none => none
            | some n =>
                if neg then
                  if n ≤ 2 ^ 63 then some (-(n : Int)) else none
                else
                  if n ≤ 2 ^ 63 - 1 then some (n : Int) else none

/-- Model of Go `strconv.ParseUint(s, 10, 64)`: no sign permitted, a
non-empty run of decimal digits, with the uint64 range check. -/
def parseUint64 (s : String) : Option Nat :=
  match s.data with
  | [] => none
  | digits =>
      match decVal digits 0 with
      | none => none
      | some n => if n ≤ 2 ^ 64 - 1 then some n else none

/-- Model of Go `strconv.ParseBool`: accepts exactly the listed strings. -/
def parseBoolGo (s : String) : Option Bool :=
  if s = "1" || s = "t" || s = "T" || s = "TRUE" || s = "true" || s = "True" then
    some true
  else if s = "0" || s = "f" || s = "F" || s = "FALSE" || s = "false" || s = "False" then
    some false
  else
    none

/-- ASCII lower-casing of one character, as Go `strings.ToLower` acts on
the ASCII range (the only range exercised by the modelled code paths). -/
def asciiLower (c : Char) : Char :=
  if 'A' ≤ c && c ≤ 'Z' then Char.ofNat (c.toNat + 32) else c

/-- ASCII lower-casing of a string. -/
def asciiLowerStr (s : String) : String :=
  ⟨s.data.map asciiLower⟩

/-- Go `unicode.IsSpace` restricted to the code points that occur in this
package's inputs: the Latin-1 white space set. -/
def isGoSpace (c : Char) : Bool :=
  c = ' ' || c = '\t' || c = '\n' || (c.toNat = 11) || (c.toNat = 12) ||
    c = '\r' || (c.toNat = 0x85) || (c.toNat = 0xA0)

/-- Model of Go `strings.TrimSpace`: drop white space from both ends. -/
def goTrimSpace (s : String) : String :=
  ⟨(s.data.dropWhile isGoSpace).reverse.dropWhile isGoSpace |>.reverse⟩

/-- Model of Go `strings.Split(s, ",")` (an empty input yields one empty
element, as in Go). -/
def goSplitComma (s : String) : List String :=
  s.splitOn ","

/-- Hexadecimal letter test (`a`–`f`, case-insensitive). -/
def isHexLetter (c : Char) : Bool :=
  'a' ≤ asciiLower c && asciiLower c ≤ 'f'

/-- Case-insensitive (ASCII) comparison of a character list with a string. -/
def eqIgnoreCase (l : List Char) (s : String) : Bool :=
  l.map asciiLower = s.data

/-- Strip one leading `+` or `-`. -/
def stripSign : List Char → List Char
  | c :: t => if c = '+' || c = '-' then t else c :: t
  | [] => []

/-- Model of the `special` recognizer inside Go `strconv.ParseFloat`:
`inf`/`infinity` (optionally signed) and `nan` (unsigned), all
case-insensitive, consuming the whole input. -/
def floatSpecialOk (l : List Char) : Bool :=
  match l with
  | [] => false
  | c :: t =>
      if c = '+' || c = '-' then
        eqIgnoreCase t "inf" || eqIgnoreCase t "infinity"
      else
        eqIgnoreCase l "inf" || eqIgnoreCase l "infinity" || eqIgnoreCase l "nan"

/-- Mantissa scan of Go `strconv.readFloat`: consumes digits (hex digits
when `hex`), underscores, and at most one dot.  Returns whether a digit
was seen, whether an underscore was seen, and the unconsumed rest. -/
def floatMantScan (hex : Bool) : List Char → Bool → Bool → Bool → Bool × Bool × List Char
  | [], _, sawdigits, us => (sawdigits, us, [])
  | c :: t, sawdot, sawdigits, us =>
      if c = '_' then floatMantScan hex t sawdot sawdigits true
      else if c = '.' then
        if sawdot then (sawdigits, us, c :: t)
        else floatMantScan hex t true sawdigits us
      else if isDecDigit c || (hex && isHexLetter c) then
        floatMantScan hex t sawdot true us
      else (sawdigits, us, c :: t)

/-- Exponent digit run of Go `strconv.readFloat` (digits and underscores). -/
def floatExpScan : List Char → Bool → Bool × List Char
  | [], us => (us, [])
  | c :: t, us =>
      if isDecDigit c then floatExpScan t us
      else if c = '_' then floatExpScan t true
      else (us, c :: t)

/-- Exponent part after the `e`/`p` marker: optional sign, then a run that
must start with a digit.  `none` models Go's syntax error. -/
def floatExpPart (l : List Char) : Option (Bool × List Char) :=
  match l with
  | [] => none
  | c :: t =>
      let body := if c = '+' || c = '-' then t else c :: t
      match body with
      | d :: _ => if isDecDigit d then some (floatExpScan body false) else none
      | [] => none

/-- Digit-separator state machine of Go `strconv.underscoreOK` (state `saw`
is `^` at the start, `0` after a digit or base prefix, `_` after an
underscore, `!` otherwise). -/
def underscoreOKCore (hex : Bool) : List Char → Char → Bool
  | [], saw => saw ≠ '_'
  | c :: t, saw =>
      if isDecDigit c || (hex && isHexLetter c) then underscoreOKCore hex t '0'
      else if c = '_' then
        if saw ≠ '0' then false else underscoreOKCore hex t '_'
      else if saw = '_' then false
      else underscoreOKCore hex t '!'

/-- Model of Go `strconv.underscoreOK`: underscores must separate digits
(after an optional sign and base prefix). -/
def underscoreOK (l : List Char) : Bool :=
  let l1 := stripSign l
  match l1 with
  | '0' :: b :: t =>
      if asciiLower b = 'b' || asciiLower b = 'o' || asciiLower b = 'x' then
        underscoreOKCore (asciiLower b = 'x') t '0'
      else underscoreOKCore false l1 '^'
  | _ => underscoreOKCore false l1 '^'

/-- Syntax acceptance of Go `strconv.ParseFloat(s, 64)` (whether the call
returns a nil error).  The numeric value is not modelled: no code path in
this package observes the parsed floating-point value, only parse
success. -/
def parseFloatOk (s : String) : Bool :=
  let l := s.data
  if floatSpecialOk l then true
  else
    let l1 := stripSign l
    let hexSplit : Bool × List Char :=
      match l1 with
      | '0' :: x :: c :: t => if asciiLower x = 'x' then (true, c :: t) else (false, l1)
      | _ => (false, l1)
    match hexSplit with
    | (hex, body) =>
        match floatMantScan hex body false false false with
        | (sawdigits, us, rest) =>
            if !sawdigits then false
            else
              let expChar := if hex then 'p' else 'e'
              match rest with
              | c :: t =>
                  if asciiLower c = expChar then
                    match floatExpPart t with
                    | none => false
                    | some (us2, rest2) =>
                        rest2.isEmpty && (!(us || us2) || underscoreOK l)
                  else false
              | [] => if hex then false else (!us || underscoreOK l)

/-- Nanoseconds per unit, as Go `time.unitMap`. -/
def unitNs (u : String) : Option Nat :=
  if u = "ns" then some 1
  else if u = "us" || u = "µs" || u = "μs" then some 1000
  else if u = "ms" then some 1000000
  else if u = "s" then some 1000000000
  else if u = "m" then some 60000000000
  else if u = "h" then some 3600000000000
  else none

/-- Model of Go `time.leadingInt`: accumulate digits, failing as soon as
the value exceeds `2^63`. -/
def duLeadingInt : List Char → Nat → Option (Nat × List Char)
  | [], acc => some (acc, [])
  | c :: t, acc =>
      if isDecDigit c then
        let acc' := acc * 10 + (c.toNat - '0'.toNat)
        if acc' > 2 ^ 63 then none else duLeadingInt t acc'
      else some (acc, c :: t)

/-- Model of Go `time.leadingFraction`: accumulate fractional digits and a
power-of-ten scale, silently dropping digits once the value would
overflow. -/
def duLeadingFrac : List Char → Nat → Nat → Bool → Nat × Nat × List Char
  | [], x, scale, _ => (x, scale, [])
  | c :: t, x, scale, overflow =>
      if isDecDigit c then
        if overflow then duLeadingFrac t x scale true
        else if x > (2 ^ 63 - 1) / 10 then duLeadingFrac t x scale true
        else
          let y := x * 10 + (c.toNat - '0'.toNat)
          if y > 2 ^ 63 then duLeadingFrac t x scale true
          else duLeadingFrac t y (scale * 10) false
      else (x, scale, c :: t)

/-- Split off the unit name: the run of characters up to the next digit or
dot. -/
def duUnitSplit : List Char → List Char × List Char
  | [] => ([], [])
  | c :: t =>
      if c = '.' || isDecDigit c then ([], c :: t)
      else
        match duUnitSplit t with
        | (u, r) => (c :: u, r)

/-- One `value unit` term plus the remaining terms of a Go duration
string.  `fuel` bounds the recursion; every iteration consumes at least
one character, so `fuel = length of the input` never runs out.  The
fractional contribution `f*unit/scale` is computed with exact integer
division where Go truncates a `float64` product; no claim observes the
parsed value, only parse success, and the two agree on whether parsing
succeeds. -/
def duLoop : Nat → List Char → Nat → Option Nat
  | _, [], d => some d
  | 0, _ :: _, _ => none
  | fuel + 1, c :: l, d =>
      if !(c = '.' || isDecDigit c) then none
      else
        match duLeadingInt (c :: l) 0 with
        | none => none
        | some (v, rest1) =>
            let pre := rest1.length ≠ (c :: l).length
            let fracStep : Nat × Nat × List Char × Bool :=
              match rest1 with
              | '.' :: t1 =>
                  match duLeadingFrac t1 0 1 false with
                  | (f, scale, rest2) => (f, scale, rest2, rest2.length ≠ t1.length)
              | _ => (0, 1, rest1, false)
            match fracStep with
            | (f, scale, rest2, post) =>
                if !pre && !post then none
                else
                  match duUnitSplit rest2 with
                  | (u, rest3) =>
                      if u.isEmpty then none
                      else
                        match unitNs ⟨u⟩ with
                        | none => none
                        | some unit =>
                            if v > 2 ^ 63 / unit then none
                            else
                              let v1 := v * unit
                              let v2 := if f > 0 then v1 + f * unit / scale else v1
                              if v2 > 2 ^ 63 then none
                              else
                                let d' := d + v2
                                if d' > 2 ^ 63 then none else duLoop fuel rest3 d'

/-- Model of Go `time.ParseDuration`, returning the duration in
nanoseconds, or `none` when Go returns an error. -/
def parseDurationNs (s : String) : Option Int :=
  let l := s.data
  let signSplit : Bool × List Char :=
    match l with
    | c :: t => if c = '-' then (true, t) else if c = '+' then (false, t) else (false, l)
    | [] => (false, l)
  match signSplit with
  | (neg, body) =>
      if body = ['0'] then some 0
      else if body.isEmpty then none
      else
        match duLoop (body.length + 1) body 0 with
        | none => none
        | some d =>
            if neg then some (-(d : Int))
            else if d > 2 ^ 63 - 1 then none
            else some (d : Int)

/-- Two's-complement wrap-around of an `Int` to the int64 range, as Go's
unchecked int64 multiplication. -/
def wrap64 (i : Int) : Int :=
  (i + 2 ^ 63) % 2 ^ 64 - 2 ^ 63

/-! ## Field mapper (`loader.go`: `unmarshalConfig`, `unmarshalStruct`,
`setFieldValue`)

A target struct type is embedded as a schema of field declarations in
declaration order (only settable, i.e. exported, fields appear, matching
the `CanSet` skip in the source).  Leaf field kinds mirror the `reflect`
kinds dispatched by `setFieldValue`; `structOther`, `sliceOther` and
`otherKind` carry the rendered type text used in the error message. -/

/-- Leaf field kind, as dispatched by `setFieldValue` in `loader.go`. -/
inductive FieldType where
  | str : FieldType
  | intT : FieldType
  | uintT : FieldType
  | floatT : FieldType
  | boolT : FieldType
  | duration : FieldType
  | strSlice : FieldType
  | sliceOther : String → FieldType
  | secret : FieldType
  | structOther : String → FieldType
  | otherKind : String → FieldType
deriving DecidableEq, Repr

/-- Value stored in a leaf field.  Floating-point fields keep the accepted
literal (IEEE-754 value semantics are observed by no claim); the empty
literal denotes the zero float. -/
inductive FieldValue where
  | vStr : String → FieldValue
  | vInt : Int → FieldValue
  | vUint : Nat → FieldValue
  | vFloat : String → FieldValue
  | vBool : Bool → FieldValue
  | vDuration : Int → FieldValue
  | vStrSlice : List String → FieldValue
  | vSecret : String → FieldValue
  | vOpaque : FieldValue
deriving DecidableEq, Repr

/-- Go zero value of each leaf field kind. -/
def zeroValue : FieldType → FieldValue
  | .str => .vStr ""
  | .intT => .vInt 0
  | .uintT => .vUint 0
  | .floatT => .vFloat ""
  | .boolT => .vBool false
  | .duration => .vDuration 0
  | .strSlice => .vStrSlice []
  | .sliceOther _ => .vOpaque
  | .secret => .vSecret ""
  | .structOther _ => .vOpaque
  | .otherKind _ => .vOpaque

/-- Model of `setFieldValue` in `loader.go`: coerce the raw string into
the field's kind, or return the error message Go formats. -/
def setFieldValue (ty : FieldType) (s : String) : Except String FieldValue :=
  match ty with
  | .str => .ok (.vStr s)
  | .duration =>
      match parseDurationNs s with
      | some d => .ok (.vDuration d)
      | none =>
          match parseInt64 s with
          | some secs => .ok (.vDuration (wrap64 (secs * 1000000000)))
          | none => .error ("invalid duration: " ++ s)
  | .intT =>
      match parseInt64 s with
      | some i => .ok (.vInt i)
      | none => .error ("invalid integer: " ++ s)
  | .uintT =>
      match parseUint64 s with
      | some u => .ok (.vUint u)
      | none => .error ("invalid unsigned integer: " ++ s)
  | .floatT =>
      if parseFloatOk s then .ok (.vFloat s)
      else .error ("invalid float: " ++ s)
  | .boolT =>
      match parseBoolGo s with
      | some b => .ok (.vBool b)
      | none =>
          let low := asciiLowerStr s
          if low = "yes" || low = "y" || low = "on" || low = "enabled" || low = "1" then
            .ok (.vBool true)
          else if low = "no" || low = "n" || low = "off" || low = "disabled" || low = "0" then
            .ok (.vBool false)
          else .error ("invalid boolean: " ++ s)
  | .strSlice => .ok (.vStrSlice ((goSplitComma s).map goTrimSpace))
  | .sliceOther d => .error ("unsupported slice type: " ++ d)
  | .secret => .ok (.vSecret s)
  | .structOther d => .error ("unsupported struct type: " ++ d)
  | .otherKind d => .error ("unsupported type: " ++ d)

/-- Flat configuration map: string keys to string values with distinct
keys, the Go `map[string]string` handed from providers to the mapper. -/
def FlatMap := List (String × String)

/-- Schema of a struct's settable fields in declaration order.  A `leaf`
carries the field name and the `doppler`, `default` and `required` tag
values (empty string for an absent tag); `embedded` is an anonymous
struct field (walked with the same prefix); `nested` is a named struct
field other than `time.Time`/`SecretValue` (walked with
`prefix + name + "."`). -/
inductive Fields where
  | nil : Fields
  | leaf (name : String) (ty : FieldType) (dopplerTag defaultTag requiredTag : String)
      (rest : Fields) : Fields
  | embedded (sub : Fields) (rest : Fields) : Fields
  | nested (name : String) (sub : Fields) (rest : Fields) : Fields
deriving DecidableEq, Repr

/-- Populated values, mirroring the shape of a `Fields` schema. -/
inductive CVals where
  | nil : CVals
  | leaf (v : FieldValue) (rest : CVals) : CVals
  | group (sub : CVals) (rest : CVals) : CVals
deriving DecidableEq, Repr

/-- Key a leaf field resolves against: the `doppler` tag when present,
otherwise the prefix plus the field name (`unmarshalStruct` in
`loader.go`). -/
def fieldKey (pre name dopplerTag : String) : String :=
  if dopplerTag ≠ "" then dopplerTag else pre ++ name

/-- Raw value and presence for a leaf field after the default-substitution
step of `unmarshalStruct`: look the key up; when absent or empty and a
default tag exists, the default is used and the field counts as
present. -/
def resolveRaw (values : FlatMap) (key defaultTag : String) : String × Bool :=
  let looked : String × Bool :=
    match List.lookup key values with
    | some v => (v, true)
    | none => ("", false)
  match looked with
  | (raw, exists0) =>
      if (!exists0 || raw = "") && defaultTag ≠ "" then (defaultTag, true)
      else (raw, exists0)

/-- Model of `unmarshalStruct` in `loader.go`: walk the schema in
declaration order, resolving each leaf via lookup, default substitution,
the required check (fatal), and `setFieldValue` (non-fatal; failure
appends a warning and leaves the zero value). -/
def unmarshalFields (values : FlatMap) : Fields → String → List String →
    Except String (CVals × List String)
  | .nil, _, ws => .ok (.nil, ws)
  | .leaf name ty dopplerTag defaultTag requiredTag rest, pre, ws =>
      let key := fieldKey pre name dopplerTag
      match resolveRaw values key defaultTag with
      | (raw, exists1) =>
          if requiredTag = "true" && !exists1 then
            .error ("required field " ++ name ++ " (key: " ++ key ++ ") not found")
          else if !exists1 || raw = "" then
            match unmarshalFields values rest pre ws with
            | .error e => .error e
            | .ok (vs, ws') => .ok (.leaf (zeroValue ty) vs, ws')
          else
            match setFieldValue ty raw with
            | .ok v =>
                match unmarshalFields values rest pre ws with
                | .error e => .error e
                | .ok (vs, ws') => .ok (.leaf v vs, ws')
            | .error e =>
                match unmarshalFields values rest pre
                    (ws ++ ["failed to set " ++ name ++ ": " ++ e]) with
                | .error e' => .error e'
                | .ok (vs, ws') => .ok (.leaf (zeroValue ty) vs, ws')
  | .embedded sub rest, pre, ws =>
      match unmarshalFields values sub pre ws with
      | .error e => .error e
      | .ok (svs, ws1) =>
          match unmarshalFields values rest pre ws1 with
          | .error e => .error e
          | .ok (vs, ws2) => .ok (.group svs vs, ws2)
  | .nested name sub rest, pre, ws =>
      match unmarshalFields values sub (pre ++ name ++ ".") ws with
      | .error e => .error e
      | .ok (svs, ws1) =>
          match unmarshalFields values rest pre ws1 with
          | .error e => .error e
          | .ok (vs, ws2) => .ok (.group svs vs, ws2)

/-- Model of `unmarshalConfig` in `loader.go` (the target is always a
non-nil pointer to a struct in this embedding, so the two kind checks
always pass). -/
def unmarshalConfig (values : FlatMap) (fs : Fields) : Except String (CVals × List String) :=
  unmarshalFields values fs "" []

/-- Success marker for `Except`. -/
def exOk {ε α : Type} : Except ε α → Bool
  | .ok _ => true
  | .error _ => false

/-! ### Compositional characterisation of the mapper

The following three functions restate `unmarshalStruct` field by field:
`coveredRequired` says no required field is missing after default
substitution, `mapVals` gives each field's final value, and
`fieldWarnings` collects the coercion-failure warnings.  The
characterisation lemmas below prove `unmarshalFields` equal to this
presentation, which is what claims C2 and C8 quantify over. -/

/-- True when no `required:"true"` leaf under this schema is absent after
default substitution (the condition for `unmarshalStruct` to succeed). -/
def coveredRequired (values : FlatMap) : Fields → String → Bool
  | .nil, _ => true
  | .leaf name _ dopplerTag defaultTag requiredTag rest, pre =>
      (requiredTag ≠ "true" || (resolveRaw values (fieldKey pre name dopplerTag) defaultTag).2) &&
        coveredRequired values rest pre
  | .embedded sub rest, pre => coveredRequired values sub pre && coveredRequired values rest pre
  | .nested name sub rest, pre =>
      coveredRequired values sub (pre ++ name ++ ".") && coveredRequired values rest pre

/-- Final value of every field on the success path: absent-or-empty
fields keep the zero value, coercion failures keep the zero value, and
successful coercions store the coerced value. -/
def mapVals (values : FlatMap) : Fields → String → CVals
  | .nil, _ => .nil
  | .leaf name ty dopplerTag defaultTag _ rest, pre =>
      let rr := resolveRaw values (fieldKey pre name dopplerTag) defaultTag
      let v :=
        if !rr.2 || rr.1 = "" then zeroValue ty
        else
          match setFieldValue ty rr.1 with
          | .ok v => v
          | .error _ => zeroValue ty
      .leaf v (mapVals values rest pre)
  | .embedded sub rest, pre => .group (mapVals values sub pre) (mapVals values rest pre)
  | .nested name sub rest, pre =>
      .group (mapVals values sub (pre ++ name ++ ".")) (mapVals values rest pre)

/-- Warnings produced on the success path, in field declaration order:
one per field whose present, non-empty raw value fails coercion. -/
def fieldWarnings (values : FlatMap) : Fields → String → List String
  | .nil, _ => []
  | .leaf name ty dopplerTag defaultTag _ rest, pre =>
      let rr := resolveRaw values (fieldKey pre name dopplerTag) defaultTag
      let here :=
        if !rr.2 || rr.1 = "" then []
        else
          match setFieldValue ty rr.1 with
          | .ok _ => []
          | .error e => ["failed to set " ++ name ++ ": " ++ e]
      here ++ fieldWarnings values rest pre
  | .embedded sub rest, pre => fieldWarnings values sub pre ++ fieldWarnings values rest pre
  | .nested name sub rest, pre =>
      fieldWarnings values sub (pre ++ name ++ ".") ++ fieldWarnings values rest pre

/-- Error message of the first missing required field, walking the schema
in the same order as `unmarshalStruct`, or `none` when no required field
is missing. -/
def firstMissingReq (values : FlatMap) : Fields → String → Option String
  | .nil, _ => none
  | .leaf name _ dopplerTag defaultTag requiredTag rest, pre =>
      let key := fieldKey pre name dopplerTag
      if requiredTag = "true" && !(resolveRaw values key defaultTag).2 then
        some ("required field " ++ name ++ " (key: " ++ key ++ ") not found")
      else firstMissingReq values rest pre
  | .embedded sub rest, pre =>
      match firstMissingReq values sub pre with
      | some e => some e
      | none => firstMissingReq values rest pre
  | .nested name sub rest, pre =>
      match firstMissingReq values sub (pre ++ name ++ ".") with
      | some e => some e
      | none => firstMissingReq values rest pre

theorem unmarshalFields_char (values : FlatMap) (fs : Fields) :
    ∀ pre ws, unmarshalFields values fs pre ws =
      match firstMissingReq values fs pre with
      | some e => .error e
      | none => .ok (mapVals values fs pre, ws ++ fieldWarnings values fs pre) := by
  induction fs with
  | nil => intro pre ws; simp [unmarshalFields, firstMissingReq, mapVals, fieldWarnings]
  | leaf name ty dopplerTag defaultTag requiredTag rest ih =>
      intro pre ws
      simp only [unmarshalFields, firstMissingReq, mapVals, fieldWarnings]
      rcases hrr : resolveRaw values (fieldKey pre name dopplerTag) defaultTag with ⟨raw, ex⟩
      by_cases hm : (requiredTag = "true" && !ex) = true
      · simp only [hm, if_true, if_pos]
      · simp only [hm, if_neg, Bool.false_eq_true, if_false]
        by_cases hze : (!ex || raw = "") = true
        · simp only [hze, if_true, if_pos]
          cases hfm : firstMissingReq values rest pre <;> simp [ih, hfm]
        · simp only [hze, if_neg, Bool.false_eq_true, if_false]
          cases hset : setFieldValue ty raw with
          | ok v =>
              cases hfm : firstMissingReq values rest pre <;> simp [ih, hfm]
          | error e =>
              cases hfm : firstMissingReq values rest pre <;> simp [ih, hfm]
  | embedded sub rest ihs ihr =>
      intro pre ws
      simp only [unmarshalFields, firstMissingReq, mapVals, fieldWarnings]
      rw [ihs pre ws]
      cases hfs : firstMissingReq values sub pre with
      | some e => simp
      | none =>
          simp only []
          rw [ihr pre (ws ++ fieldWarnings values sub pre)]
          cases hfr : firstMissingReq values rest pre <;> simp
  | nested name sub rest ihs ihr =>
      intro pre ws
      simp only [unmarshalFields, firstMissingReq, mapVals, fieldWarnings]
      rw [ihs (pre ++ name ++ ".") ws]
      cases hfs : firstMissingReq values sub (pre ++ name ++ ".") with
      | some e => simp
      | none =>
          simp only []
          rw [ihr pre (ws ++ fieldWarnings values sub (pre ++ name ++ "."))]
          cases hfr : firstMissingReq values rest pre <;> simp

theorem coveredRequired_iff_noMissing (values : FlatMap) (fs : Fields) :
    ∀ pre, coveredRequired values fs pre = true ↔ firstMissingReq values fs pre = none := by
  induction fs with
  | nil => intro pre; simp [coveredRequired, firstMissingReq]
  | leaf name ty dopplerTag defaultTag requiredTag rest ih =>
      intro pre
      simp only [coveredRequired, firstMissingReq]
      rcases hrr : resolveRaw values (fieldKey pre name dopplerTag) defaultTag with ⟨raw, ex⟩
      by_cases hrt : requiredTag = "true" <;> cases ex <;> simp [hrt, ih pre]
  | embedded sub rest ihs ihr =>
      intro pre
      simp only [coveredRequired, firstMissingReq, Bool.and_eq_true]
      rw [ihs pre, ihr pre]
      cases hfs : firstMissingReq values sub pre <;> simp
  | nested name sub rest ihs ihr =>
      intro pre
      simp only [coveredRequired, firstMissingReq, Bool.and_eq_true]
      rw [ihs (pre ++ name ++ "."), ihr pre]
      cases hfs : firstMissingReq values sub (pre ++ name ++ ".") <;> simp

/-! ## Resolver / Loader (`loader.go`)

The loader's mutable state (`current`, `metadata`, `callbacks`) is a
record; one `loadFromProvider` call is a pure function from the state and
the two providers' fetch outcomes to a result, the new state, and the
list of callback invocations it performs (callback identifier with the
old and new snapshot, in invocation order).  `Option (Except String
FlatMap)` models a provider slot: `none` is a nil provider, `some (.ok
m)` a successful `Fetch`, `some (.error e)` a failed one.  Time is an
abstract `Nat` tick standing for `time.Now()`. -/

/-- The three `FailurePolicy` constants of the package. -/
inductive FailurePolicy where
  | fail : FailurePolicy
  | fallback : FailurePolicy
  | warn : FailurePolicy
deriving DecidableEq, Repr

/-- Bootstrap parameters consumed by the loader. -/
structure BootstrapConfig where
  token : String := ""
  project : String := ""
  config : String := ""
  fallbackPath : String := ""
  watchEnabled : Bool := false
  failurePolicy : FailurePolicy := .fail
deriving DecidableEq, Repr

/-- The `ConfigMetadata` record of the package (`LoadedAt` as an abstract
tick). -/
structure ConfigMetadata where
  source : String := ""
  loadedAt : Nat := 0
  project : String := ""
  config : String := ""
  etag : String := ""
  keyCount : Nat := 0
  warnings : List String := []
deriving DecidableEq, Repr

/-- Mutable state of `loader[T]`: the current snapshot, its metadata and
the registered callbacks (as identifiers, in registration order). -/
structure LoaderState where
  current : Option CVals := none
  metadata : ConfigMetadata := {}
  callbacks : List Nat := []
deriving DecidableEq, Repr

/-- Rendering of the wrapped fetch error in `fmt.Errorf("...: %w", err)`;
when no provider ran at all `err` is nil and `%w` renders Go's nil-verb
marker. -/
def errText : Option String → String
  | some e => e
  | none => "%!w(<nil>)"

/-- One callback invocation: callback identifier, old snapshot, new
snapshot. -/
def CallbackEvent := Nat × CVals × CVals

/-- Fetch-and-policy stage of `loadFromProvider` in `loader.go` (lines up
to the `values == nil` switch): try the primary provider, fall back, and
apply the configured failure policy; the success value is the flat map
together with the effective source name. -/
def fetchStage (bootstrap : BootstrapConfig)
    (primary fallbackProv : Option (Except String FlatMap))
    (primaryName fallbackName : String) : Except String (FlatMap × String) :=
  let step1 : Option FlatMap × String × Option String :=
    match primary with
    | none => (none, "", none)
    | some (.ok m) => (some m, primaryName, none)
    | some (.error e) => (none, "", some e)
  let step2 : Option FlatMap × String × Option String :=
    match step1 with
    | (none, src, err0) =>
        match fallbackProv with
        | none => (none, src, err0)
        | some (.ok m) => (some m, fallbackName, none)
        | some (.error e) => (none, src, some e)
    | r => r
  match step2 with
  | (values1, source1, err1) =>
      match values1 with
      | some m => .ok (m, source1)
      | none =>
          match bootstrap.failurePolicy with
          | .fail => .error ("failed to load configuration: " ++ errText err1)
          | .warn => .ok ([], "defaults")
          | .fallback =>
              match err1 with
              | some e => .error ("failed to load configuration: " ++ e)
              | none => .error "no configuration available"

/-- Model of `loadFromProvider` in `loader.go`: the fetch stage, then
parse, then commit the snapshot and (on a reload with a prior snapshot)
invoke the callbacks. -/
def loadFromProvider (schema : Fields) (bootstrap : BootstrapConfig)
    (primary fallbackProv : Option (Except String FlatMap))
    (primaryName fallbackName : String) (isReload : Bool) (now : Nat)
    (st : LoaderState) :
    Except String CVals × LoaderState × List CallbackEvent :=
  match fetchStage bootstrap primary fallbackProv primaryName fallbackName with
  | .error e => (.error e, st, [])
  | .ok (values, source) =>
      match unmarshalConfig values schema with
      | .error e => (.error ("failed to parse configuration: " ++ e), st, [])
      | .ok (cfg, warnings) =>
          let md : ConfigMetadata :=
            { source := source, loadedAt := now, project := bootstrap.project,
              config := bootstrap.config, etag := "", keyCount := values.length,
              warnings := warnings }
          let st' : LoaderState :=
            { current := some cfg, metadata := md, callbacks := st.callbacks }
          let events : List CallbackEvent :=
            if isReload then
              match st.current with
              | some old => st.callbacks.map (fun i => (i, old, cfg))
              | none => []
            else []
          (.ok cfg, st', events)

/-- Model of `Load`: `loadFromProvider` with `isReload = false`. -/
def loadOp (schema : Fields) (bootstrap : BootstrapConfig)
    (primary fallbackProv : Option (Except String FlatMap))
    (primaryName fallbackName : String) (now : Nat) (st : LoaderState) :
    Except String CVals × LoaderState × List CallbackEvent :=
  loadFromProvider schema bootstrap primary fallbackProv primaryName fallbackName false now st

/-- Model of `Reload`: `loadFromProvider` with `isReload = true`. -/
def reloadOp (schema : Fields) (bootstrap : BootstrapConfig)
    (primary fallbackProv : Option (Except String FlatMap))
    (primaryName fallbackName : String) (now : Nat) (st : LoaderState) :
    Except String CVals × LoaderState × List CallbackEvent :=
  loadFromProvider schema bootstrap primary fallbackProv primaryName fallbackName true now st

/-- Model of `Current`: the stored snapshot, no I/O. -/
def currentOf (st : LoaderState) : Option CVals :=
  st.current

/-- Model of `Metadata`: the stored metadata. -/
def metadataOf (st : LoaderState) : ConfigMetadata :=
  st.metadata

/-- Model of `OnChange`: append the callback to the registration list (no
deduplication). -/
def onChange (st : LoaderState) (cb : Nat) : LoaderState :=
  { st with callbacks := st.callbacks ++ [cb] }

/-! ## Secret value (`SecretValue` in the bootstrap source file) -/

/-- Wrapper around a sensitive string. -/
structure SecretValue where
  value : String
deriving DecidableEq, Repr

/-- Model of `NewSecretValue`. -/
def NewSecretValue (v : String) : SecretValue :=
  ⟨v⟩

/-- Model of the `String()` method: a fixed redaction marker, or
`[empty]` when the wrapped string is empty. -/
def SecretValue.render (s : SecretValue) : String :=
  if s.value = "" then "[empty]" else "[REDACTED]"

/-- Model of the `MarshalJSON()` method: the returned bytes as a string
(the Go method's error result is always nil). -/
def SecretValue.marshalJSON (_s : SecretValue) : String :=
  "\"[REDACTED]\""

/-! ## Multi-tenant resolver (`multitenant.go`)

`ReloadProjects` is modelled as a pure function of the cached project map
and a fetch oracle `String → Except String P` standing for
`fetchAndParse` (fetch with fallback plus `unmarshalConfig`).  The cached
map is an association list with distinct keys; Go iterates the
`oldCodes` set in unspecified order, and the model fixes the cached list
order — the three diff lists are sorted by the code itself, so their
content is order-independent, and the claims consult `reloadErrors` only
for membership. -/

/-- The `ReloadDiff` record: project codes added, removed, and retained
by a reload sweep. -/
structure ReloadDiff where
  added : List String := []
  removed : List String := []
  unchanged : List String := []
deriving DecidableEq, Repr

/-- Sort a list of strings ascending, as Go `sort.Strings` (the total
order on strings makes the sorted result algorithm-independent). -/
def sortStrings (l : List String) : List String :=
  l.insertionSort (· ≤ ·)

/-- Diff computation of `ReloadProjects` (`multitenant.go`): a code in
both the new and the old set is unchanged, a code only in the new set is
added, a code only in the old set is removed; all three lists sorted. -/
def computeReloadDiff (oldCodes newCodes : List String) : ReloadDiff :=
  { added := sortStrings (newCodes.filter (fun c => !oldCodes.contains c)),
    removed := sortStrings (oldCodes.filter (fun c => !newCodes.contains c)),
    unchanged := sortStrings (newCodes.filter (fun c => oldCodes.contains c)) }

/-- Outcome of one `ReloadProjects` call. -/
structure ReloadOutcome (P : Type) where
  result : Except String ReloadDiff
  projects : List (String × P)
  projectKeys : List String
  reloadErrors : List String
  events : List ReloadDiff

/-- Per-code sweep of `ReloadProjects`: a succeeding code is stored with
its fresh value, a failing code is recorded in the error list and left
out of the new map. -/
def sweepProjects {P : Type} (fetch : String → Except String P) :
    List String → List (String × P) × List String
  | [] => ([], [])
  | code :: t =>
      match fetch code with
      | .ok cfg =>
          match sweepProjects fetch t with
          | (np, errs) => ((code, cfg) :: np, errs)
      | .error _ =>
          match sweepProjects fetch t with
          | (np, errs) => (np, code :: errs)

/-- Model of `ReloadProjects` in `multitenant.go`: re-fetch every
currently known code, diff the new key set against the old one, replace
the cache wholesale, and hand the diff to every project callback.  The
Go `error` result is nil on every return path, hence `result` is always
`.ok`. -/
def reloadProjects {P : Type} (fetch : String → Except String P)
    (projects : List (String × P)) (projectCallbacks : Nat) : ReloadOutcome P :=
  let oldCodes := projects.map Prod.fst
  let sweep := sweepProjects fetch oldCodes
  let newProjects := sweep.1
  let diff := computeReloadDiff oldCodes (newProjects.map Prod.fst)
  { result := .ok diff,
    projects := newProjects,
    projectKeys := sortStrings (newProjects.map Prod.fst),
    reloadErrors := sweep.2,
    events := List.replicate projectCallbacks diff }

/-! ## Watcher (`watcher.go`)

The watcher's observable state is whether its background task is
running, the consecutive-failure counter, and the configured ceiling.
One `poll` is a transition on that state driven by whether `Reload`
failed; the self-stop `go w.Stop()` is modelled as the transition to
`running = false` (the Go stop is asynchronous but, per the `doneCh`
hand-shake, observably completes; no further poll runs after it). -/

/-- Observable watcher state. -/
structure WatcherState where
  running : Bool
  failureCount : Nat
  maxFailures : Nat
deriving DecidableEq, Repr

/-- State after `Start` on a fresh watcher configured with ceiling
`maxF`. -/
def watcherStarted (maxF : Nat) : WatcherState :=
  { running := true, failureCount := 0, maxFailures := maxF }

/-- Model of `poll` in `watcher.go`: on a failed reload increment the
consecutive-failure counter and stop when the ceiling is reached; on a
successful reload reset the counter to zero. -/
def pollStep (reloadFailed : Bool) (w : WatcherState) : WatcherState :=
  if reloadFailed then
    let failures := w.failureCount + 1
    if w.maxFailures > 0 && failures ≥ w.maxFailures then
      { w with failureCount := failures, running := false }
    else { w with failureCount := failures }
  else { w with failureCount := 0 }

/-- Model of the `run` loop over a finite schedule of reload outcomes
(`true` = that reload fails): ticks are consumed while the watcher runs,
and a stopped watcher polls no more. -/
def runPolls : List Bool → WatcherState → WatcherState
  | [], w => w
  | r :: t, w => if w.running then runPolls t (pollStep r w) else w

/-! ## The `url` validation rule (`fallback.go`: `validateURL`)

`validateURL` delegates entirely to Go `net/url.ParseRequestURI`, which
is `parse(rawURL, viaRequest == true)` in the standard library.  The
model below embeds that parse's accept/reject behaviour character by
character (Go operates on bytes; every rejected byte class is ASCII, so
the character-level model agrees with the byte-level original). -/

/-- Control byte as tested by `net/url.stringContainsCTLByte`. -/
def isCTL (c : Char) : Bool :=
  c.toNat < 0x20 || c.toNat = 0x7f

/-- ASCII letter. -/
def isAlphaGo (c : Char) : Bool :=
  ('a' ≤ c && c ≤ 'z') || ('A' ≤ c && c ≤ 'Z')

/-- Hex digit as Go `net/url.ishex`. -/
def isHexDigitGo (c : Char) : Bool :=
  isDecDigit c || ('a' ≤ c && c ≤ 'f') || ('A' ≤ c && c ≤ 'F')

/-- Numeric value of a hex digit (Go `net/url.unhex`). -/
def unhexGo (c : Char) : Nat :=
  if isDecDigit c then c.toNat - '0'.toNat
  else if 'a' ≤ c && c ≤ 'f' then c.toNat - 'a'.toNat + 10
  else if 'A' ≤ c && c ≤ 'F' then c.toNat - 'A'.toNat + 10
  else 0

/-- Scheme scan of `net/url.getScheme`: `none` models the "missing
protocol scheme" error (a leading `:`), otherwise the scheme (empty when
absent) and the rest. -/
def getSchemeAux (orig : List Char) : List Char → List Char → Bool →
    Option (List Char × List Char)
  | [], _, _ => some ([], orig)
  | c :: t, acc, first =>
      if isAlphaGo c then getSchemeAux orig t (acc ++ [c]) false
      else if isDecDigit c || c = '+' || c = '-' || c = '.' then
        if first then some ([], orig) else getSchemeAux orig t (acc ++ [c]) false
      else if c = ':' then
        if first then none else some (acc, t)
      else some ([], orig)

/-- Model of `net/url.getScheme`. -/
def getScheme (l : List Char) : Option (List Char × List Char) :=
  getSchemeAux l l [] true

/-- Query-stripping step of `net/url.parse`: a single trailing `?` sets
`ForceQuery` and is dropped; otherwise everything from the first `?` on
becomes the raw query. -/
def stripQuery (l : List Char) : List Char :=
  if l.getLast? = some '?' && !(l.dropLast.contains '?') then l.dropLast
  else l.takeWhile (fun c => c ≠ '?')

/-- Percent-escape well-formedness: every `%` is followed by two hex
digits (the only error `net/url.unescape` raises in path or
user-password mode). -/
def validPctEscapes : List Char → Bool
  | [] => true
  | c :: t =>
      if c = '%' then
        match t with
        | a :: b :: t2 => isHexDigitGo a && isHexDigitGo b && validPctEscapes t2
        | _ => false
      else validPctEscapes t

/-- Character allowed raw in a host component (`net/url.shouldEscape`
with `encodingHost`/`encodingZone` returning false, or a non-ASCII
byte). -/
def hostCharAllowed (c : Char) : Bool :=
  isAlphaGo c || isDecDigit c ||
    (c = '!' || c = '$' || c = '&' || c = '\'' || c = '(' || c = ')' ||
     c = '*' || c = '+' || c = ',' || c = ';' || c = '=' || c = ':' ||
     c = '[' || c = ']' || c = '<' || c = '>' || c = '"') ||
    (c = '-' || c = '_' || c = '.' || c = '~') ||
    c.toNat ≥ 0x80

/-- Host unescape acceptance (`net/url.unescape` with `encodingHost`):
percent escapes must be two hex digits and, in a host, may only encode
non-ASCII bytes (`%8X`–`%FF`) or the literal `%25`; raw characters must
be in the allowed host class. -/
def unescapeHostOk : List Char → Bool
  | [] => true
  | '%' :: a :: b :: t =>
      isHexDigitGo a && isHexDigitGo b && (unhexGo a ≥ 8 || (a = '2' && b = '5')) &&
        unescapeHostOk t
  | '%' :: _ => false
  | c :: t => hostCharAllowed c && unescapeHostOk t

/-- Zone unescape acceptance (`net/url.unescape` with `encodingZone`):
like a host but any well-formed percent escape is allowed. -/
def unescapeZoneOk : List Char → Bool
  | [] => true
  | '%' :: a :: b :: t => isHexDigitGo a && isHexDigitGo b && unescapeZoneOk t
  | '%' :: _ => false
  | c :: t => hostCharAllowed c && unescapeZoneOk t

/-- Model of `net/url.validOptionalPort`. -/
def validOptionalPort : List Char → Bool
  | [] => true
  | ':' :: t => t.all isDecDigit
  | _ => false

/-- Index of the last occurrence of a character. -/
def lastIdxOf (c : Char) : List Char → Option Nat
  | [] => none
  | x :: t =>
      match lastIdxOf c t with
      | some i => some (i + 1)
      | none => if x = c then some 0 else none

/-- Index of the first occurrence of the substring `%25`. -/
def idxOfPct25 : List Char → Option Nat
  | '%' :: '2' :: '5' :: _ => some 0
  | _ :: t => (idxOfPct25 t).map (· + 1)
  | [] => none

/-- Model of `net/url.parseHost` acceptance: bracketed IP literals with
optional `:port` and optional RFC 6874 zone, else an optional trailing
`:port`, then host unescaping of the whole. -/
def parseHostOk (host : List Char) : Bool :=
  match host with
  | '[' :: _ =>
      match lastIdxOf ']' host with
      | none => false
      | some i =>
          validOptionalPort (host.drop (i + 1)) &&
            (match idxOfPct25 (host.take i) with
             | some z =>
                 unescapeHostOk ((host.take i).take z) &&
                   unescapeZoneOk ((host.take i).drop z) &&
                   unescapeHostOk (host.drop i)
             | none => unescapeHostOk host)
  | _ =>
      (match lastIdxOf ':' host with
       | some i => validOptionalPort (host.drop i)
       | none => true) &&
        unescapeHostOk host

/-- Character allowed in userinfo (`net/url.validUserinfo`). -/
def validUserinfoChar (c : Char) : Bool :=
  isAlphaGo c || isDecDigit c ||
    (c = '-' || c = '.' || c = '_' || c = ':' || c = '~' || c = '!' ||
     c = '$' || c = '&' || c = '\'' || c = '(' || c = ')' || c = '*' ||
     c = '+' || c = ',' || c = ';' || c = '=' || c = '%' || c = '@')

/-- Model of `net/url.parseAuthority` acceptance: split at the last `@`,
validate the host, and validate the userinfo characters and its percent
escapes. -/
def parseAuthorityOk (authority : List Char) : Bool :=
  match lastIdxOf '@' authority with
  | none => parseHostOk authority
  | some i =>
      parseHostOk (authority.drop (i + 1)) &&
        (authority.take i).all validUserinfoChar &&
        validPctEscapes (authority.take i)

/-- Acceptance of Go `net/url.ParseRequestURI` (`parse` with
`viaRequest = true`): reject control bytes and the empty string, accept
`*`, split off the scheme, strip the query, treat a rootless rest as
opaque when a scheme is present and as an error otherwise, parse the
authority after `scheme://`, and validate the path's percent escapes. -/
def goParseRequestURIOk (l : List Char) : Bool :=
  if l.any isCTL then false
  else if l.isEmpty then false
  else if l = ['*'] then true
  else
    match getScheme l with
    | none => false
    | some (scheme, rest0) =>
        let rest := stripQuery rest0
        match rest with
        | '/' :: '/' :: t =>
            if scheme.isEmpty then validPctEscapes rest
            else
              parseAuthorityOk (t.takeWhile (fun c => c ≠ '/')) &&
                validPctEscapes (t.dropWhile (fun c => c ≠ '/'))
        | '/' :: _ => validPctEscapes rest
        | _ => !scheme.isEmpty

/-- The `ValidationError` record of `fallback.go` (its `Value` field for
the string fields the `url` rule applies to). -/
structure ValidationError where
  field : String
  value : String
  message : String
deriving DecidableEq, Repr

/-- Model of `validateURL` in `fallback.go`, on string fields (for
non-string kinds the source returns nil without looking at the value):
empty strings are skipped, otherwise the value must be accepted by
`net/url.ParseRequestURI`. -/
def validateURL (fieldName : String) (s : String) : Option ValidationError :=
  if s = "" then none
  else if goParseRequestURIOk s.data then none
  else some ⟨fieldName, s, "invalid URL"⟩

/-! ## Helper lemmas -/

theorem sweepProjects_keys {P : Type} (fetch : String → Except String P) :
    ∀ codes : List String,
      ((sweepProjects fetch codes).1.map Prod.fst) =
        codes.filter (fun c => exOk (fetch c)) := by
  intro codes
  induction codes with
  | nil => simp [sweepProjects]
  | cons code t ih =>
      simp only [sweepProjects]
      cases hf : fetch code with
      | ok cfg => simpa [exOk, hf] using ih
      | error e => simpa [exOk, hf] using ih

theorem sweepProjects_errs {P : Type} (fetch : String → Except String P) :
    ∀ codes : List String,
      (sweepProjects fetch codes).2 = codes.filter (fun c => !exOk (fetch c)) := by
  intro codes
  induction codes with
  | nil => simp [sweepProjects]
  | cons code t ih =>
      simp only [sweepProjects]
      cases hf : fetch code with
      | ok cfg => simpa [exOk, hf] using ih
      | error e => simpa [exOk, hf] using ih

theorem runPolls_allFail : ∀ (k j N : Nat), j < N → j + k ≤ N →
    runPolls (List.replicate k true) ⟨true, j, N⟩ =
      ⟨decide (j + k < N), j + k, N⟩ := by
  intro k
  induction k with
  | zero =>
      intro j N hj _
      simp [runPolls, hj]
  | succ k ih =>
      intro j N hj hjk
      have hN0 : 0 < N := Nat.lt_of_le_of_lt (Nat.zero_le j) hj
      have hstep : pollStep true ⟨true, j, N⟩ =
          if j + 1 ≥ N then ⟨false, j + 1, N⟩ else ⟨true, j + 1, N⟩ := by
        by_cases hge : N ≤ j + 1
        · simp [pollStep, hge, hN0]
        · simp [pollStep, hge]
      simp only [List.replicate_succ, runPolls, if_pos]
      rw [hstep]
      by_cases h1 : j + 1 ≥ N
      · have hk0 : k = 0 := by omega
        have hN : j + 1 = N := by omega
        subst hk0
        rw [if_pos h1]
        simp [runPolls]
        omega
      · rw [if_neg h1]
        have := ih (j + 1) N (by omega) (by omega)
        rw [this]
        have h2 : j + 1 + k = j + (k + 1) := by omega
        rw [h2]

/-! ## Claim theorems -/

/-- C2 counterexample: a `required:"true"` string field whose source key
is present but maps to the empty string, with no default, does not make
the resolve fail — `unmarshalConfig` succeeds and exposes the required
field empty, contrary to the claim. -/
theorem requiredEmpty_resolve_succeeds :
    unmarshalConfig [("DATABASE_URL", "")]
        (.leaf "URL" .str "DATABASE_URL" "" "true" .nil) =
      .ok (.leaf (.vStr "") .nil, []) := by
  rfl

/-- C2 (amended): the mapper succeeds exactly when every required field's
key is present in the flat map or a non-empty default substitutes for it
(`coveredRequired`); presence of the key — even with an empty value —
satisfies the required check, so a successful resolve can expose a
required field left empty. -/
theorem resolve_success_iff_required_covered :
    ∀ (values : FlatMap) (fs : Fields) (pre : String) (ws : List String),
      exOk (unmarshalFields values fs pre ws) = coveredRequired values fs pre := by
  intro values fs pre ws
  rw [unmarshalFields_char]
  cases hfm : firstMissingReq values fs pre with
  | none =>
      have := (coveredRequired_iff_noMissing values fs pre).mpr hfm
      simp [exOk, this]
  | some e =>
      cases hcv : coveredRequired values fs pre with
      | false => simp [exOk]
      | true =>
          exfalso
          rw [(coveredRequired_iff_noMissing values fs pre).mp hcv] at hfm
          exact Option.noConfusion hfm

/-- C3 counterexample: with `FailurePolicyFallback` configured and both
providers failing, `Load` returns an error (the `default` branch of the
policy switch), contrary to the claim that it succeeds with defaults. -/
theorem fallbackPolicy_bothFail_returns_error :
    (loadFromProvider .nil { failurePolicy := .fallback }
        (some (.error "primary down")) (some (.error "fallback down"))
        "doppler" "file:/etc/cfg.json" false 0 {}).1 =
      .error "failed to load configuration: fallback down" := by
  rfl

/-- C3 (amended): when both providers fail, `FailurePolicyFallback` (the
switch's `default` branch) surfaces the error and leaves the state
untouched just like `FailurePolicyFail`; only `FailurePolicyWarn` treats
the situation as an empty source, producing a struct populated only from
declared defaults and reporting `defaults` as the effective source. -/
theorem failurePolicy_fallback_vs_warn :
    (∀ (schema : Fields) (bootstrap : BootstrapConfig) (pe fe pn fn : String)
        (isReload : Bool) (now : Nat) (st : LoaderState),
      bootstrap.failurePolicy = .fallback →
        loadFromProvider schema bootstrap (some (.error pe)) (some (.error fe))
            pn fn isReload now st =
          (.error ("failed to load configuration: " ++ fe), st, [])) ∧
    (∀ (schema : Fields) (bootstrap : BootstrapConfig) (pe fe pn fn : String)
        (isReload : Bool) (now : Nat) (st : LoaderState),
      bootstrap.failurePolicy = .warn →
      coveredRequired [] schema "" = true →
        (loadFromProvider schema bootstrap (some (.error pe)) (some (.error fe))
            pn fn isReload now st).1 = .ok (mapVals [] schema "") ∧
        (metadataOf (loadFromProvider schema bootstrap (some (.error pe))
            (some (.error fe)) pn fn isReload now st).2.1).source = "defaults") := by
  constructor
  · intro schema bootstrap pe fe pn fn isReload now st hpol
    simp [loadFromProvider, fetchStage, hpol]
  · intro schema bootstrap pe fe pn fn isReload now st hpol hcov
    have hchar := unmarshalFields_char [] schema "" []
    rw [(coveredRequired_iff_noMissing [] schema "").mp hcov] at hchar
    simp only [loadFromProvider, fetchStage, hpol, unmarshalConfig, hchar, metadataOf]
    simp

/-- C3 witness: with a defaulted optional schema, both providers failing
yields an error under the fallback policy and a defaults-populated
struct with source `defaults` under the warn policy. -/
theorem failurePolicy_fallback_vs_warn_witness :
    loadFromProvider (.leaf "Port" .intT "PORT" "8080" "" .nil)
        { failurePolicy := .fallback } (some (.error "p down"))
        (some (.error "f down")) "doppler" "file" false 0 {} =
      (.error "failed to load configuration: f down", {}, []) ∧
    ((loadFromProvider (.leaf "Port" .intT "PORT" "8080" "" .nil)
        { failurePolicy := .warn } (some (.error "p down"))
        (some (.error "f down")) "doppler" "file" false 0 {}).1 =
      .ok (mapVals [] (.leaf "Port" .intT "PORT" "8080" "" .nil) "") ∧
    (metadataOf (loadFromProvider (.leaf "Port" .intT "PORT" "8080" "" .nil)
        { failurePolicy := .warn } (some (.error "p down"))
        (some (.error "f down")) "doppler" "file" false 0 {}).2.1).source =
      "defaults") :=
  ⟨failurePolicy_fallback_vs_warn.1 (.leaf "Port" .intT "PORT" "8080" "" .nil)
      { failurePolicy := .fallback } "p down" "f down" "doppler" "file" false 0 {} rfl,
    failurePolicy_fallback_vs_warn.2 (.leaf "Port" .intT "PORT" "8080" "" .nil)
      { failurePolicy := .warn } "p down" "f down" "doppler" "file" false 0 {} rfl
      (by decide)⟩

/-- C5: the reload diff is computed by tenant presence — from old tenants
`{a, b}` and a new tenant set `{b, c}` the diff is Added `[c]`, Removed
`[a]`, Unchanged `[b]` — all three lists are always sorted ascending,
and `ReloadProjects` returns exactly the presence diff of the old key
set against the new one. -/
theorem reloadDiff_presence_and_sorted :
    computeReloadDiff ["a", "b"] ["b", "c"] =
      { added := ["c"], removed := ["a"], unchanged := ["b"] } ∧
    (∀ oldCodes newCodes : List String,
      (computeReloadDiff oldCodes newCodes).added.Sorted (· ≤ ·) ∧
      (computeReloadDiff oldCodes newCodes).removed.Sorted (· ≤ ·) ∧
      (computeReloadDiff oldCodes newCodes).unchanged.Sorted (· ≤ ·)) ∧
    (∀ (P : Type) (fetch : String → Except String P)
        (projects : List (String × P)) (k : Nat),
      (reloadProjects fetch projects k).result =
        .ok (computeReloadDiff (projects.map Prod.fst)
          ((reloadProjects fetch projects k).projects.map Prod.fst))) := by
  refine ⟨by decide, ?_, ?_⟩
  · intro oldCodes newCodes
    exact ⟨List.sorted_insertionSort _ _, List.sorted_insertionSort _ _,
      List.sorted_insertionSort _ _⟩
  · intro P fetch projects k
    rfl

/-- C6 counterexample: the JSON marshalling of an empty Secret Value is
`"[REDACTED]"`, not `"[empty]"` — `MarshalJSON` ignores emptiness,
contrary to the claim that every structured serialization renders
`[empty]` when the wrapped string is empty. -/
theorem secret_marshalJSON_empty_redacted :
    (NewSecretValue "").marshalJSON = "\"[REDACTED]\"" ∧
      (NewSecretValue "").marshalJSON ≠ "\"[empty]\"" := by
  constructor
  · rfl
  · decide

/-- C6 (amended): the textual rendering of a Secret Value is `[REDACTED]`
when non-empty and `[empty]` when empty; the JSON marshalling is always
`"[REDACTED]"` regardless of emptiness; and the raw accessor returns the
wrapped string unchanged. -/
theorem secret_render_marshal_value :
    ∀ s : String,
      (NewSecretValue s).render = (if s = "" then "[empty]" else "[REDACTED]") ∧
      (NewSecretValue s).marshalJSON = "\"[REDACTED]\"" ∧
      (NewSecretValue s).value = s := by
  intro s
  refine ⟨rfl, rfl, rfl⟩

/-- C9: with failure ceiling `N > 0` and a loader whose reload always
fails, the consecutive-failure counter equals the number of failed
polls, the watcher is still running after any `k < N` failures, it is
stopped with counter `N` after exactly `N` consecutive failures without
any external stop, and one successful reload resets the counter to
zero. -/
theorem watcher_failure_ceiling (N : Nat) (hN : 0 < N) :
    (∀ k, k < N → runPolls (List.replicate k true) (watcherStarted N) =
      { running := true, failureCount := k, maxFailures := N }) ∧
    runPolls (List.replicate N true) (watcherStarted N) =
      { running := false, failureCount := N, maxFailures := N } ∧
    (∀ w : WatcherState, (pollStep false w).failureCount = 0) := by
  refine ⟨?_, ?_, ?_⟩
  · intro k hk
    have := runPolls_allFail k 0 N hN (by omega)
    simp only [Nat.zero_add] at this
    rw [watcherStarted, this]
    simp [hk]
  · have := runPolls_allFail N 0 N hN (by omega)
    simp only [Nat.zero_add] at this
    rw [watcherStarted, this]
    simp
  · intro w
    simp [pollStep]

/-- C1: whenever `loadFromProvider` (hence `Load` or `Reload`) returns an
error — both providers failing under the fail policy, or the mapper
reporting a missing required field — the stored snapshot and metadata
are unchanged and no onChange callback is invoked by that call. -/
theorem loadError_preserves_snapshot (schema : Fields) (bootstrap : BootstrapConfig)
    (primary fallbackProv : Option (Except String FlatMap)) (pn fn : String)
    (isReload : Bool) (now : Nat) (st : LoaderState) (e : String)
    (h : (loadFromProvider schema bootstrap primary fallbackProv pn fn
        isReload now st).1 = .error e) :
    currentOf (loadFromProvider schema bootstrap primary fallbackProv pn fn
        isReload now st).2.1 = currentOf st ∧
    metadataOf (loadFromProvider schema bootstrap primary fallbackProv pn fn
        isReload now st).2.1 = metadataOf st ∧
    (loadFromProvider schema bootstrap primary fallbackProv pn fn
        isReload now st).2.2 = [] := by
  unfold loadFromProvider at h ⊢
  cases hf : fetchStage bootstrap primary fallbackProv pn fn with
  | error e2 => simp [hf, currentOf, metadataOf]
  | ok p =>
      rcases p with ⟨values, source⟩
      cases hu : unmarshalConfig values schema with
      | error e2 => simp [hf, hu, currentOf, metadataOf]
      | ok q =>
          rcases q with ⟨cfg, warnings⟩
          simp [hf, hu] at h

/-- Populated loader state used to witness C1. -/
def stPopulated : LoaderState :=
  { current := some (.leaf (.vStr "old") .nil),
    metadata := { source := "mock", keyCount := 1 },
    callbacks := [0, 1] }

/-- C1 witness: a reload against a failing provider under the fail policy
leaves a populated loader state byte-for-byte unchanged and fires no
callback. -/
theorem loadError_preserves_snapshot_witness :
    currentOf (loadFromProvider .nil { failurePolicy := .fail }
        (some (.error "boom")) none "doppler" "" true 7 stPopulated).2.1 =
      currentOf stPopulated ∧
    metadataOf (loadFromProvider .nil { failurePolicy := .fail }
        (some (.error "boom")) none "doppler" "" true 7 stPopulated).2.1 =
      metadataOf stPopulated ∧
    (loadFromProvider .nil { failurePolicy := .fail }
        (some (.error "boom")) none "doppler" "" true 7 stPopulated).2.2 = [] :=
  loadError_preserves_snapshot .nil { failurePolicy := .fail }
    (some (.error "boom")) none "doppler" "" true 7 stPopulated
    "failed to load configuration: boom" (by rfl)

/-- C4 counterexample: with cached tenants `a` and `b` where re-fetching
`a` fails and `b` succeeds, the project map after the sweep is exactly
`[("b", 20)]` — tenant `a`'s previous entry is dropped, not retained,
and `a` is reported in the diff as removed. -/
theorem reload_failedTenant_entry_dropped :
    (reloadProjects
        (fun c => if c = "b" then Except.ok 20 else Except.error "fetch failed")
        [("a", (1 : Nat)), ("b", 2)] 0).projects = [("b", 20)] ∧
    (reloadProjects
        (fun c => if c = "b" then Except.ok 20 else Except.error "fetch failed")
        [("a", (1 : Nat)), ("b", 2)] 0).result =
      .ok { added := [], removed := ["a"], unchanged := ["b"] } ∧
    (reloadProjects
        (fun c => if c = "b" then Except.ok 20 else Except.error "fetch failed")
        [("a", (1 : Nat)), ("b", 2)] 0).reloadErrors = ["a"] := by
  refine ⟨rfl, rfl, rfl⟩

/-- C4 (amended): a tenant whose re-fetch or re-parse fails during
`ReloadProjects` is skipped — its code is recorded in the error list and
its entry is dropped from the project map (it surfaces as removed in the
diff) — while every tenant whose fetch succeeds is present in the new
map; the call never returns an error. -/
theorem reloadProjects_skips_failed_tenant {P : Type}
    (fetch : String → Except String P) (projects : List (String × P))
    (k : Nat) (code err : String)
    (hmem : code ∈ projects.map Prod.fst)
    (hfail : fetch code = .error err) :
    code ∈ (reloadProjects fetch projects k).reloadErrors ∧
    code ∉ ((reloadProjects fetch projects k).projects.map Prod.fst) ∧
    (∀ c, c ∈ projects.map Prod.fst → exOk (fetch c) = true →
      c ∈ ((reloadProjects fetch projects k).projects.map Prod.fst)) ∧
    exOk (reloadProjects fetch projects k).result = true := by
  simp only [reloadProjects]
  refine ⟨?_, ?_, ?_, rfl⟩
  · rw [sweepProjects_errs]
    rw [List.mem_filter]
    exact ⟨hmem, by simp [exOk, hfail]⟩
  · rw [sweepProjects_keys]
    intro hin
    have := (List.mem_filter.mp hin).2
    rw [hfail] at this
    simp [exOk] at this
  · intro c hc hok
    rw [sweepProjects_keys]
    exact List.mem_filter.mpr ⟨hc, by simp [hok]⟩

/-- C4 witness: at the concrete two-tenant cache where tenant `a` fails
and tenant `b` succeeds, `a` is in the error list and out of the map,
`b` is still present, and the call reports no error. -/
theorem reloadProjects_skips_failed_tenant_witness :
    "a" ∈ (reloadProjects
        (fun c => if c = "b" then Except.ok 20 else Except.error "fetch failed")
        [("a", (1 : Nat)), ("b", 2)] 0).reloadErrors ∧
    "a" ∉ ((reloadProjects
        (fun c => if c = "b" then Except.ok 20 else Except.error "fetch failed")
        [("a", (1 : Nat)), ("b", 2)] 0).projects.map Prod.fst) ∧
    (∀ c, c ∈ ["a", "b"] →
      exOk ((fun c => if c = "b" then Except.ok (20 : Nat)
        else Except.error "fetch failed") c) = true →
      c ∈ ((reloadProjects
        (fun c => if c = "b" then Except.ok 20 else Except.error "fetch failed")
        [("a", (1 : Nat)), ("b", 2)] 0).projects.map Prod.fst)) ∧
    exOk (reloadProjects
        (fun c => if c = "b" then Except.ok 20 else Except.error "fetch failed")
        [("a", (1 : Nat)), ("b", 2)] 0).result = true :=
  reloadProjects_skips_failed_tenant
    (fun c => if c = "b" then Except.ok 20 else Except.error "fetch failed")
    [("a", (1 : Nat)), ("b", 2)] 0 "a" "fetch failed" (by decide) (by rfl)

/-- C7: registered callbacks are invoked with the (old, new) snapshot
pair exactly once each, in registration order, by a successful `Reload`
with a prior snapshot; `Load` never invokes them, and neither does a
`Reload` when no prior snapshot existed. -/
theorem reload_callbacks_exactly_once (schema : Fields) (bootstrap : BootstrapConfig)
    (primary fallbackProv : Option (Except String FlatMap)) (pn fn : String)
    (now : Nat) (st : LoaderState) :
    (∀ old cfg, st.current = some old →
      (reloadOp schema bootstrap primary fallbackProv pn fn now st).1 = .ok cfg →
      (reloadOp schema bootstrap primary fallbackProv pn fn now st).2.2 =
        st.callbacks.map (fun i => (i, old, cfg))) ∧
    (loadOp schema bootstrap primary fallbackProv pn fn now st).2.2 = [] ∧
    (st.current = none →
      (reloadOp schema bootstrap primary fallbackProv pn fn now st).2.2 = []) := by
  refine ⟨?_, ?_, ?_⟩
  · intro old cfg hcur hok
    unfold reloadOp loadFromProvider at hok ⊢
    cases hf : fetchStage bootstrap primary fallbackProv pn fn with
    | error e => simp [hf] at hok
    | ok p =>
        rcases p with ⟨values, source⟩
        cases hu : unmarshalConfig values schema with
        | error e => simp [hf, hu] at hok
        | ok q =>
            rcases q with ⟨cfg', warnings⟩
            simp [hf, hu] at hok
            subst hok
            simp [hf, hu, hcur]
  · unfold loadOp loadFromProvider
    cases hf : fetchStage bootstrap primary fallbackProv pn fn with
    | error e => simp
    | ok p =>
        rcases p with ⟨values, source⟩
        cases hu : unmarshalConfig values schema with
        | error e => simp [hu]
        | ok q => rcases q with ⟨cfg', warnings⟩; simp [hu]
  · intro hcur
    unfold reloadOp loadFromProvider
    cases hf : fetchStage bootstrap primary fallbackProv pn fn with
    | error e => simp
    | ok p =>
        rcases p with ⟨values, source⟩
        cases hu : unmarshalConfig values schema with
        | error e => simp [hu]
        | ok q => rcases q with ⟨cfg', warnings⟩; simp [hu, hcur]

/-- Loader state with a prior snapshot and two callbacks, used to
witness C7. -/
def stPriorSnapshot : LoaderState :=
  { current := some (.leaf (.vStr "v1") .nil),
    metadata := {},
    callbacks := [0, 1] }

/-- Loader state with two callbacks and no prior snapshot, used to
witness C7. -/
def stFresh : LoaderState :=
  { current := none, metadata := {}, callbacks := [0, 1] }

/-- C7 witness: a successful reload over a two-callback loader with a
prior snapshot invokes callbacks 0 and 1 in order with the old and new
snapshots, and a first load fires nothing. -/
theorem reload_callbacks_exactly_once_witness :
    (reloadOp (.leaf "K" .str "K" "" "" .nil) {} (some (.ok [("K", "v2")])) none
        "mock" "" 3 stPriorSnapshot).2.2 =
      [(0, .leaf (.vStr "v1") .nil, .leaf (.vStr "v2") .nil),
        (1, .leaf (.vStr "v1") .nil, .leaf (.vStr "v2") .nil)] ∧
    (loadOp (.leaf "K" .str "K" "" "" .nil) {} (some (.ok [("K", "v2")])) none
        "mock" "" 3 stFresh).2.2 = [] := by
  refine ⟨?_, ?_⟩
  · exact (reload_callbacks_exactly_once (.leaf "K" .str "K" "" "" .nil) {}
      (some (.ok [("K", "v2")])) none "mock" "" 3 stPriorSnapshot).1
      (.leaf (.vStr "v1") .nil) (.leaf (.vStr "v2") .nil) rfl (by rfl)
  · exact (reload_callbacks_exactly_once (.leaf "K" .str "K" "" "" .nil) {}
      (some (.ok [("K", "v2")])) none "mock" "" 3 stFresh).2.1

/-- C8: given a successful fetch, the load fails exactly when a required
field is missing; on success the result is the per-field `mapVals` with
`fieldWarnings` attached to the metadata — and a present, non-empty raw
value that fails coercion contributes the zero value for its field plus
one warning, never an error. -/
theorem coercionFailure_nonfatal_warning :
    (∀ (schema : Fields) (bootstrap : BootstrapConfig)
        (primary fallbackProv : Option (Except String FlatMap)) (pn fn : String)
        (isReload : Bool) (now : Nat) (st : LoaderState)
        (values : FlatMap) (source : String),
      fetchStage bootstrap primary fallbackProv pn fn = .ok (values, source) →
      (exOk (loadFromProvider schema bootstrap primary fallbackProv pn fn
          isReload now st).1 = coveredRequired values schema "") ∧
      (coveredRequired values schema "" = true →
        (loadFromProvider schema bootstrap primary fallbackProv pn fn
            isReload now st).1 = .ok (mapVals values schema "") ∧
        (metadataOf (loadFromProvider schema bootstrap primary fallbackProv pn fn
            isReload now st).2.1).warnings = fieldWarnings values schema "")) ∧
    (∀ (values : FlatMap) (name : String) (ty : FieldType)
        (dtag deft reqt : String) (rest : Fields) (pre raw e : String),
      resolveRaw values (fieldKey pre name dtag) deft = (raw, true) →
      raw ≠ "" →
      setFieldValue ty raw = .error e →
      mapVals values (.leaf name ty dtag deft reqt rest) pre =
        .leaf (zeroValue ty) (mapVals values rest pre) ∧
      fieldWarnings values (.leaf name ty dtag deft reqt rest) pre =
        ("failed to set " ++ name ++ ": " ++ e) :: fieldWarnings values rest pre) := by
  constructor
  · intro schema bootstrap primary fallbackProv pn fn isReload now st values source hf
    have hchar := unmarshalFields_char values schema "" []
    constructor
    · unfold loadFromProvider
      rw [hf]
      cases hfm : firstMissingReq values schema "" with
      | none =>
          rw [hfm] at hchar
          have hcov := (coveredRequired_iff_noMissing values schema "").mpr hfm
          simp [unmarshalConfig, hchar, exOk, hcov]
      | some e =>
          rw [hfm] at hchar
          cases hcv : coveredRequired values schema "" with
          | false => simp [unmarshalConfig, hchar, exOk]
          | true =>
              exfalso
              rw [(coveredRequired_iff_noMissing values schema "").mp hcv] at hfm
              exact Option.noConfusion hfm
    · intro hcov
      rw [(coveredRequired_iff_noMissing values schema "").mp hcov] at hchar
      unfold loadFromProvider
      rw [hf]
      simp [unmarshalConfig, hchar, metadataOf]
  · intro values name ty dtag deft reqt rest pre raw e hrr hraw hset
    simp only [mapVals, fieldWarnings, hrr]
    have hcond : (!true || raw = "") = false := by simp [hraw]
    simp [hcond, hset, hraw]

/-- C8 witness: an optional integer field bound to the malformed value
`abc` loads successfully with the field at its zero value and one
warning in the metadata. -/
theorem coercionFailure_nonfatal_warning_witness :
    (loadFromProvider (.leaf "N" .intT "N" "" "" .nil) {}
        (some (.ok [("N", "abc")])) none "mock" "" false 0 {}).1 =
      .ok (.leaf (.vInt 0) .nil) ∧
    (metadataOf (loadFromProvider (.leaf "N" .intT "N" "" "" .nil) {}
        (some (.ok [("N", "abc")])) none "mock" "" false 0 {}).2.1).warnings =
      ["failed to set N: invalid integer: abc"] := by
  have h := (coercionFailure_nonfatal_warning.1 (.leaf "N" .intT "N" "" "" .nil) {}
    (some (.ok [("N", "abc")])) none "mock" "" false 0 {} [("N", "abc")] "mock"
    (by rfl)).2 (by decide)
  exact ⟨h.1.trans (by rfl), h.2.trans (by rfl)⟩

theorem validPctEscapes_of_no_pct : ∀ l : List Char, '%' ∉ l →
    validPctEscapes l = true := by
  intro l
  induction l with
  | nil => intro _; rfl
  | cons c t ih =>
      intro h
      have hc : c ≠ '%' := by rintro rfl; exact h (List.mem_cons_self _ _)
      have ht : '%' ∉ t := fun hm => h (List.mem_cons_of_mem _ hm)
      unfold validPctEscapes
      rw [if_neg hc]
      exact ih ht

theorem getSchemeAux_no_colon : ∀ (l orig acc : List Char) (first : Bool),
    ':' ∉ l → getSchemeAux orig l acc first = some ([], orig) := by
  intro l
  induction l with
  | nil => intro orig acc first _; rfl
  | cons c t ih =>
      intro orig acc first h
      have hc : c ≠ ':' := by rintro rfl; exact h (List.mem_cons_self _ _)
      have ht : ':' ∉ t := fun hm => h (List.mem_cons_of_mem _ hm)
      simp only [getSchemeAux]
      by_cases h1 : isAlphaGo c = true
      · simp [h1, ih _ _ _ ht]
      · by_cases h2 : (isDecDigit c || c = '+' || c = '-' || c = '.') = true
        · cases first with
          | false => simp [h1, h2, ih _ _ _ ht]
          | true => simp [h1, h2]
        · simp [h1, h2, hc]

theorem getScheme_no_colon (l : List Char) (h : ':' ∉ l) :
    getScheme l = some ([], l) :=
  getSchemeAux_no_colon l l [] true h

theorem getScheme_slash (t : List Char) :
    getScheme ('/' :: t) = some ([], '/' :: t) := by
  rfl

theorem stripQuery_prefixOf (l : List Char) : stripQuery l <+: l := by
  unfold stripQuery
  split
  · exact List.dropLast_prefix l
  · exact List.takeWhile_prefix _

theorem stripQuery_slash (t : List Char) :
    ∃ u, stripQuery ('/' :: t) = '/' :: u := by
  unfold stripQuery
  split
  · rename_i h
    cases t with
    | nil => exact absurd h (by decide)
    | cons a t2 => exact ⟨(a :: t2).dropLast, rfl⟩
  · exact ⟨_, rfl⟩

/-- C10 counterexample: the bare absolute path `/etc/config` — a value
with no scheme — passes the `url` rule (no validation error), because
`net/url.ParseRequestURI` accepts rooted paths; the claim says it must
fail. -/
theorem urlRule_accepts_rooted_path :
    validateURL "Endpoint" "/etc/config" = none := by
  rfl

/-- C10 (amended): for a non-empty string field under the `url` rule,
validation passes iff the value is accepted by
`net/url.ParseRequestURI`, which accepts absolute schemed URIs and also
rooted (absolute-path) references: every `/`-rooted value free of
control bytes and percent signs passes, while a scheme-less (no colon)
value that is not `/`-rooted and not `*` fails with one validation
error for the field. -/
theorem urlRule_requestURI_semantics :
    (∀ (f s : String) (t : List Char),
      s.data = '/' :: t → (∀ c ∈ s.data, isCTL c = false) → '%' ∉ s.data →
      validateURL f s = none) ∧
    (∀ f s : String, s ≠ "" → s ≠ "*" → ':' ∉ s.data →
      s.data.head? ≠ some '/' →
      validateURL f s = some ⟨f, s, "invalid URL"⟩) ∧
    validateURL "Endpoint" "https://example.com" = none := by
  refine ⟨?_, ?_, by rfl⟩
  · intro f s t hdata hctl hpct
    have hs : s ≠ "" := by
      intro h
      rw [h] at hdata
      exact List.noConfusion hdata
    unfold validateURL
    rw [if_neg hs]
    suffices hok : goParseRequestURIOk s.data = true by simp [hok]
    rw [hdata] at hctl hpct ⊢
    have hany : ('/' :: t).any isCTL = false := by
      rw [List.any_eq_false]
      intro c hcmem
      simp [hctl c hcmem]
    unfold goParseRequestURIOk
    rw [hany, getScheme_slash]
    obtain ⟨u, hu⟩ := stripQuery_slash t
    have hpfx := stripQuery_prefixOf ('/' :: t)
    rw [hu] at hpfx
    have hpct' : '%' ∉ ('/' :: u) := fun hm => hpct (hpfx.subset hm)
    have hvp : validPctEscapes ('/' :: u) = true := validPctEscapes_of_no_pct _ hpct'
    simp only [Bool.false_eq_true, if_false, List.isEmpty_cons]
    have hstar : ('/' :: t) ≠ ['*'] := by
      intro hcontra
      have h2 := congrArg List.head? hcontra
      simp only [List.head?_cons] at h2
      exact absurd (Option.some.inj h2) (by decide)
    rw [if_neg hstar]
    simp only [hu]
    cases u with
    | nil => simpa using hvp
    | cons c u2 =>
        by_cases hcslash : c = '/'
        · subst hcslash
          simpa using hvp
        · cases hcc : c
          simp_all [validPctEscapes]
  · intro f s hne hstar hcolon hhead
    unfold validateURL
    rw [if_neg hne]
    suffices hko : goParseRequestURIOk s.data = false by simp [hko]
    unfold goParseRequestURIOk
    by_cases hctl : s.data.any isCTL = true
    · simp [hctl]
    · have hempty : s.data.isEmpty = false := by
        cases hd : s.data with
        | nil => exact absurd (String.ext hd) hne
        | cons a l => simp
      have hstar' : s.data ≠ ['*'] := by
        intro hcontra
        exact hstar (String.ext hcontra)
      rw [getScheme_no_colon s.data hcolon]
      simp only [Bool.not_eq_true] at hctl
      rw [hctl, hempty]
      simp only [Bool.false_eq_true, if_false]
      rw [if_neg hstar']
      have hq := stripQuery_prefixOf s.data
      cases hrest : stripQuery s.data with
      | nil => simp
      | cons c u =>
          have hcns : c ≠ '/' := by
            rintro rfl
            rw [hrest] at hq
            obtain ⟨r, hr⟩ := hq
            rw [← hr] at hhead
            simp at hhead
          cases hcc : c
          simp_all

/-- C10 witness: the rooted path `/etc/config` passes the rule via the
first conjunct, `example.com` (no scheme, not rooted) fails with one
error via the second, and `https://example.com` passes via the third. -/
theorem urlRule_requestURI_semantics_witness :
    validateURL "Endpoint" "/etc/config" = none ∧
    validateURL "Endpoint" "example.com" =
      some ⟨"Endpoint", "example.com", "invalid URL"⟩ ∧
    validateURL "Endpoint" "https://example.com" = none :=
  ⟨urlRule_requestURI_semantics.1 "Endpoint" "/etc/config" "etc/config".data
      (by rfl) (by decide) (by decide),
    urlRule_requestURI_semantics.2.1 "Endpoint" "example.com" (by decide)
      (by decide) (by decide) (by decide),
    urlRule_requestURI_semantics.2.2⟩

/-- C9 witness: instantiated at ceiling 3, the watcher runs with counter
2 after two failures, stops with counter 3 after the third, and a
success resets the counter. -/
theorem watcher_failure_ceiling_witness :
    (runPolls (List.replicate 2 true) (watcherStarted 3) =
      { running := true, failureCount := 2, maxFailures := 3 }) ∧
    (runPolls (List.replicate 3 true) (watcherStarted 3) =
      { running := false, failureCount := 3, maxFailures := 3 }) ∧
    (pollStep false (watcherStarted 3)).failureCount = 0 :=
  ⟨(watcher_failure_ceiling 3 (by decide)).1 2 (by decide),
    (watcher_failure_ceiling 3 (by decide)).2.1,
    (watcher_failure_ceiling 3 (by decide)).2.2 (watcherStarted 3)⟩

end DopplerConfig
